import Mathlib

/-!
# ElectroMag: the `Array<T>` container and the graphics module loader

A shallow embedding of `include/Data Structures.h` (class `Array<T>`) and of
`ElectroMag/src/Graphics_dynlink.cpp` (`LoadEmGraphLib`, `GET_PROC`, `LoadModule`,
Unix branch).

Conventions
* `size_t` is a natural number below `2 ^ w`; every `size_t` operation of the
  source that can wrap is reduced `% 2 ^ w` in the embedding.  `w` is the width
  of `size_t` in bits and `sizeofT` is `sizeof(T)`.
* A pointer is its address, a natural number; `0` is the null pointer.
* The C allocator is a `Heap`: the answers `malloc` will give to the calls still
  to come, the byte counts requested so far, the addresses passed to `free` so
  far, and the blocks that are live.
* `itsData[i]` is cell `i` of a `Mem`, which also records every index stored to.
* Undefined behaviour (the division by zero in `AlignAlloc`) is `none`.
-/

namespace ElectroMag

/-! ## The C allocator -/

/-- The state of the C heap as seen through `malloc` and `free`. -/
structure Heap where
  /-- Addresses the next calls of `malloc` return, in order (`0` is null);
  once the list is exhausted `malloc` returns null. -/
  answers : List Nat
  /-- Byte counts passed to `malloc` so far, most recent first. -/
  requests : List Nat
  /-- Addresses passed to `free` so far, most recent first. -/
  released : List Nat
  /-- Blocks returned by `malloc` and not passed to `free` since. -/
  live : List Nat
deriving DecidableEq, Repr

/-- The address the next call of `malloc` returns. -/
def Heap.next (h : Heap) : Nat := h.answers.headD 0

/-- A heap in which nothing has happened yet. -/
def Heap.fresh (answers : List Nat) : Heap :=
  { answers := answers, requests := [], released := [], live := [] }

/-- The call `malloc(bytes)`: returns the next answer and records the request; a
non-null answer becomes a live block. -/
def malloc (h : Heap) (bytes : Nat) : Nat × Heap :=
  (h.next,
   { answers := h.answers.tail
     requests := bytes :: h.requests
     released := h.released
     live := if h.next = 0 then h.live else h.next :: h.live })

/-- The call `free(p)`: records the address; the block is no longer live. -/
def free (h : Heap) (p : Nat) : Heap :=
  { answers := h.answers
    requests := h.requests
    released := p :: h.released
    live := h.live.filter (fun q => q ≠ p) }

/-! ## `Array<T>` -/

/-- The three data members of `Array<T>`. -/
structure Array where
  /-- Number of elements in array. -/
  itsSize : Nat
  /-- Pointer to the first element. -/
  itsData : Nat
  /-- Non-aligned pointer as returned by memory allocation routine. -/
  itsAllocation : Nat
deriving DecidableEq, Repr

/-- The memory behind `itsData`: `cells i` is `itsData[i]`, and `writes` lists
the indices stored to, most recent first. -/
structure Mem (T : Type) where
  cells : Nat → T
  writes : List Nat

/-- The store `itsData[i] = v`. -/
def Mem.store {T : Type} (m : Mem T) (i : Nat) (v : T) : Mem T :=
  { cells := Function.update m.cells i v, writes := i :: m.writes }

/-- `Array<T>::Array()`: `itsData = 0; itsSize = 0;`.  `itsAllocation` is not
initialised by the source; `indeterminate` is the value it happens to hold. -/
def Array.construct (indeterminate : Nat) : Array :=
  { itsSize := 0, itsData := 0, itsAllocation := indeterminate }

/-- `Array<T>::Alloc(size)`.  Returns the `int` result, the object and the heap. -/
def Array.Alloc (w sizeofT : Nat) (a : Array) (h : Heap) (size : Nat) :
    Nat × Array × Heap :=
  if a.itsSize = 0 then
    let r := malloc h ((size * sizeofT) % 2 ^ w)
    let a1 : Array := { itsSize := a.itsSize, itsData := r.1, itsAllocation := r.1 }
    if a1.itsAllocation ≠ 0 then
      (0, { a1 with itsSize := size }, r.2)
    else (1, a1, r.2)
  else (1, a, h)

/-- `Array<T>::ReAlloc(size)`: `itsSize = 0; return Alloc(size);`. -/
def Array.ReAlloc (w sizeofT : Nat) (a : Array) (h : Heap) (size : Nat) :
    Nat × Array × Heap :=
  Array.Alloc w sizeofT { a with itsSize := 0 } h size

/-- `Array<T>::AlignAlloc(size, alignment)`.  With an empty array and
`alignment = 0` the source divides by zero, which is undefined: `none`.
For `alignment ≥ 1` the byte count `size*sizeof(T) + alignment - 1` is computed
in `size_t`, as is the rounding of the address. -/
def Array.AlignAlloc (w sizeofT : Nat) (a : Array) (h : Heap) (size alignment : Nat) :
    Option (Nat × Array × Heap) :=
  if a.itsSize = 0 then
    if alignment = 0 then none
    else
      let r := malloc h ((size * sizeofT + alignment - 1) % 2 ^ w)
      let data := (((r.1 + alignment - 1) % 2 ^ w) / alignment * alignment) % 2 ^ w
      let a1 : Array := { itsSize := a.itsSize, itsData := data, itsAllocation := r.1 }
      if a1.itsAllocation ≠ 0 then
        some (0, { a1 with itsSize := size }, r.2)
      else some (1, a1, r.2)
  else some (1, a, h)

/-- `Array<T>::Array(size, alignment)`: the default initialisation, then
`AlignAlloc` when `alignment` is non-zero and `Alloc` otherwise; the status is
discarded. -/
def Array.construct2 (w sizeofT : Nat) (indeterminate : Nat) (h : Heap) (size alignment : Nat) :
    Option (Array × Heap) :=
  let a : Array := { itsSize := 0, itsData := 0, itsAllocation := indeterminate }
  if alignment ≠ 0 then
    (Array.AlignAlloc w sizeofT a h size alignment).map (fun r => r.2)
  else
    some (Array.Alloc w sizeofT a h size).2

/-- `Array<T>::Free()`. -/
def Array.Free (a : Array) (h : Heap) : Array × Heap :=
  let h1 := if a.itsSize ≠ 0 then free h a.itsAllocation else h
  ({ a with itsSize := 0 }, h1)

/-- `Array<T>::GetElemSize()`: `return sizeof(T);`.  The accessors are not
`const` in the source, so each returns its value together with the object. -/
def Array.GetElemSize (sizeofT : Nat) (a : Array) : Nat × Array := (sizeofT, a)

/-- `Array<T>::GetSize()`: `return itsSize;`. -/
def Array.GetSize (a : Array) : Nat × Array := (a.itsSize, a)

/-- `Array<T>::GetSizeBytes()`: `return itsSize*sizeof(T);`, a `size_t` product. -/
def Array.GetSizeBytes (w sizeofT : Nat) (a : Array) : Nat × Array :=
  ((a.itsSize * sizeofT) % 2 ^ w, a)

/-- `Array<T>::GetDataPointer()`: `return itsData;`. -/
def Array.GetDataPointer (a : Array) : Nat × Array := (a.itsData, a)

/-- The loop of `Memset`: `while (elements) { itsData[start++] = value; elements--; }`.
`start++` is a `size_t` increment. -/
def memsetLoop {T : Type} (w : Nat) (value : T) : Nat → Nat → Mem T → Mem T
  | _, 0, m => m
  | start, elements + 1, m =>
      memsetLoop w value ((start + 1) % 2 ^ w) elements (m.store start value)

/-- `Array<T>::Memset(start, elements, value)`. -/
def Array.Memset {T : Type} (w : Nat) (a : Array) (m : Mem T) (start elements : Nat)
    (value : T) : Array × Mem T :=
  if start > a.itsSize then (a, m)
  else
    let elements1 :=
      if (start + elements) % 2 ^ w ≥ a.itsSize then a.itsSize - start else elements
    (a, memsetLoop w value start elements1 m)

/-- `Array<T>::Memset(value)`: `Memset(0, itsSize, value)`. -/
def Array.MemsetAll {T : Type} (w : Nat) (a : Array) (m : Mem T) (value : T) :
    Array × Mem T :=
  Array.Memset w a m 0 a.itsSize value

/-! ## Ownership -/

/-- The address in `itsAllocation` is a live block (a statement about the
address only, not about who obtained the block). -/
def Array.HoldsLive (a : Array) (h : Heap) : Prop := a.itsAllocation ∈ h.live

instance (a : Array) (h : Heap) : Decidable (a.HoldsLive h) := by
  unfold Array.HoldsLive; infer_instance

/-- The blocks an `Array` owns after one of its operations took the heap from
`h` to `h1`, when it owned `owned` before: the non-null blocks `malloc` returned
during the operation (one answer per new request) and the blocks owned before,
less the addresses passed to `free` during the operation (the new entries of
`released`).  So a block is owned from the `malloc` that returned it to a call
of this `Array` until this `Array` passes it to `free`, whatever the pointer
fields hold. -/
def ownedAfter (owned : List Nat) (h h1 : Heap) : List Nat :=
  (((h.answers.take (h1.requests.length - h.requests.length)).filter (fun p => p ≠ 0))
      ++ owned).filter
    (fun p => p ∉ h1.released.take (h1.released.length - h.released.length))

/-- The `Array` owns a live block: one of the blocks it owns is live. -/
def OwnsLiveBlock (owned : List Nat) (h : Heap) : Prop := ∃ b ∈ owned, b ∈ h.live

instance (owned : List Nat) (h : Heap) : Decidable (OwnsLiveBlock owned h) := by
  unfold OwnsLiveBlock; infer_instance

/-- `itsSize = 0` if and only if the `Array` owns no live block. -/
def Array.Inv (a : Array) (owned : List Nat) (h : Heap) : Prop :=
  a.itsSize = 0 ↔ ¬ OwnsLiveBlock owned h

instance (a : Array) (owned : List Nat) (h : Heap) : Decidable (a.Inv owned h) := by
  unfold Array.Inv; infer_instance

/-- Every owned block is live, an empty `Array` owns nothing and a non-empty
one owns exactly the block in `itsAllocation`. -/
def Array.Owns (a : Array) (owned : List Nat) (h : Heap) : Prop :=
  (∀ b ∈ owned, b ∈ h.live) ∧
    ((a.itsSize = 0 ∧ owned = []) ∨ (a.itsSize ≠ 0 ∧ owned = [a.itsAllocation]))

instance (a : Array) (owned : List Nat) (h : Heap) : Decidable (a.Owns owned h) := by
  unfold Array.Owns; infer_instance

/-! ## The graphics module loader (`Graphics_dynlink.cpp`, Unix branch) -/

/-- Modelled from the spec: `Graphics_dynlink.h`, which declares
`Graphics::ModuleLoadCode`, is not among the sources; the status codes are
`SUCCESS`, `FILE_NOT_FOUND` and `SYMBOL_NOT_FOUND`. -/
inductive ModuleLoadCode where
  | SUCCESS
  | FILE_NOT_FOUND
  | SYMBOL_NOT_FOUND
deriving DecidableEq, Repr

/-- The dynamic linker: what `dlopen` answers for a library name and what
`dlsym` answers for a handle and a symbol name (`0` is the null pointer). -/
structure DynLinker where
  dlopen : String → Nat
  dlsym : Nat → String → Nat

/-- The two process-wide function pointers of `namespace Graphics`. -/
structure Globals where
  CreateFieldRenderer : Nat
  DeleteFieldRenderer : Nat
deriving DecidableEq, Repr

/-- The static `__EmGraphLibNameLocal` (Unix other than Apple). -/
def EmGraphLibNameLocal : String := "./libEMagGraphics.so"

/-- The static `__EmGraphLibName` (Unix other than Apple). -/
def EmGraphLibName : String := "libEMagGraphics.so"

/-- `LoadEmGraphLib(&instance)`: the status, the value left in `*pInstance`, and
the names passed to `dlopen`, in call order. -/
def LoadEmGraphLib (env : DynLinker) : ModuleLoadCode × Nat × List String :=
  let p1 := env.dlopen EmGraphLibNameLocal
  if p1 = 0 then
    let p2 := env.dlopen EmGraphLibName
    if p2 = 0 then
      (ModuleLoadCode.FILE_NOT_FOUND, p2, [EmGraphLibNameLocal, EmGraphLibName])
    else (ModuleLoadCode.SUCCESS, p2, [EmGraphLibNameLocal, EmGraphLibName])
  else (ModuleLoadCode.SUCCESS, p1, [EmGraphLibNameLocal])

/-- `Graphics::LoadModule()`: the status and the two global pointers afterwards.
Each `GET_PROC(name)` assigns `dlsym(emGraphLib, "name")` to the global `name`
and returns `SYMBOL_NOT_FOUND` when that is null.  Output to `std::cerr` is not
modelled. -/
def LoadModule (env : DynLinker) (g : Globals) : ModuleLoadCode × Globals :=
  let r := LoadEmGraphLib env
  if r.1 ≠ ModuleLoadCode.SUCCESS then (r.1, g)
  else
    let g1 : Globals :=
      { g with CreateFieldRenderer := env.dlsym r.2.1 "CreateFieldRenderer" }
    if g1.CreateFieldRenderer = 0 then (ModuleLoadCode.SYMBOL_NOT_FOUND, g1)
    else
      let g2 : Globals :=
        { g1 with DeleteFieldRenderer := env.dlsym r.2.1 "DeleteFieldRenderer" }
      if g2.DeleteFieldRenderer = 0 then (ModuleLoadCode.SYMBOL_NOT_FOUND, g2)
      else (ModuleLoadCode.SUCCESS, g2)

/-! ## Properties -/

/-- Rounding an address up with `((p + A - 1) / A) * A`: the result is a
multiple of `A`, at least `p` and at most `p + A - 1`. -/
theorem align_up_bounds (p A : Nat) (hA : 0 < A) :
    A ∣ (p + A - 1) / A * A ∧ p ≤ (p + A - 1) / A * A ∧
      (p + A - 1) / A * A ≤ p + A - 1 := by
  refine ⟨Dvd.intro_left _ rfl, ?_, Nat.div_mul_le_self _ _⟩
  have h1 := Nat.div_add_mod (p + A - 1) A
  have h2 := Nat.mod_lt (p + A - 1) hA
  have h3 : A * ((p + A - 1) / A) = (p + A - 1) / A * A := Nat.mul_comm _ _
  omega

/-- The three fields and the heap after a successful `AlignAlloc` whose
arithmetic does not wrap. -/
theorem AlignAlloc_success (w sizeofT n A p : Nat) (a : Array) (h : Heap)
    (hempty : a.itsSize = 0) (hA : 0 < A) (hp : h.next = p) (hp0 : p ≠ 0)
    (hfit : n * sizeofT + A - 1 < 2 ^ w) (haddr : p + A - 1 < 2 ^ w) :
    Array.AlignAlloc w sizeofT a h n A =
      some (0, { itsSize := n, itsData := (p + A - 1) / A * A, itsAllocation := p },
        (malloc h (n * sizeofT + A - 1)).2) := by
  have hb := align_up_bounds p A hA
  have hd : (p + A - 1) / A * A < 2 ^ w := lt_of_le_of_lt hb.2.2 haddr
  subst hp
  simp [Array.AlignAlloc, hempty, Nat.pos_iff_ne_zero.mp hA, malloc, hp0,
    Nat.mod_eq_of_lt hfit, Nat.mod_eq_of_lt haddr, Nat.mod_eq_of_lt hd]

/-- The result of `AlignAlloc` on an empty `Array`, with a non-zero alignment,
when `malloc` returns a non-null block. -/
theorem AlignAlloc_nonnull (w sizeofT n A : Nat) (a : Array) (h : Heap)
    (hempty : a.itsSize = 0) (hA : A ≠ 0) (hp0 : h.next ≠ 0) :
    Array.AlignAlloc w sizeofT a h n A =
      some (0, ⟨n, (((h.next + A - 1) % 2 ^ w) / A * A) % 2 ^ w, h.next⟩,
        (malloc h ((n * sizeofT + A - 1) % 2 ^ w)).2) := by
  simp [Array.AlignAlloc, hempty, hA, malloc, hp0]

/-- The address `AlignAlloc` computes for `itsData` is a multiple of the
alignment, whether or not the addition wraps. -/
theorem align_data_dvd (w p A : Nat) :
    A ∣ (((p + A - 1) % 2 ^ w) / A * A) % 2 ^ w := by
  have hx : (p + A - 1) % 2 ^ w < 2 ^ w := Nat.mod_lt _ (Nat.two_pow_pos w)
  have hle : (p + A - 1) % 2 ^ w / A * A ≤ (p + A - 1) % 2 ^ w := Nat.div_mul_le_self _ _
  rw [Nat.mod_eq_of_lt (lt_of_le_of_lt hle hx)]
  exact Dvd.intro_left _ rfl

/-- The address `AlignAlloc` computes for `itsData` is at most `p + A - 1`,
whether or not the addition wraps. -/
theorem align_data_le (w p A : Nat) :
    (((p + A - 1) % 2 ^ w) / A * A) % 2 ^ w ≤ p + A - 1 :=
  le_trans (Nat.mod_le _ _) (le_trans (Nat.div_mul_le_self _ _) (Nat.mod_le _ _))

/-- C1 (as amended): for every `n > 0`, every power-of-two `A` and every
non-null address `p` returned by `malloc`, `AlignAlloc(n, A)` on an empty
`Array` succeeds with `itsSize = n` and `itsAllocation = p`, `itsData` is a
multiple of `A`, and the request is `n*sizeof(T) + A - 1` computed in `size_t`.
When that request does not wrap,
`itsData + n*sizeof(T) ≤ itsAllocation + ` the bytes requested from `malloc`.
When `p + A - 1` does not wrap, `itsAllocation ≤ itsData`; that is so in
particular when the request does not wrap and the block of that many bytes at
`p` lies inside the address space (`sizeof(T)` being at least 1). -/
theorem C1_AlignAlloc_aligned_in_block (w sizeofT n A p : Nat) (a : Array) (h : Heap)
    (hempty : a.itsSize = 0) (hn : 0 < n) (hA : ∃ k, A = 2 ^ k)
    (hp : h.next = p) (hp0 : p ≠ 0) :
    ∃ a1 h1, Array.AlignAlloc w sizeofT a h n A = some (0, a1, h1) ∧
      a1.itsSize = n ∧ a1.itsData % A = 0 ∧ a1.itsAllocation = p ∧
      h1.requests = (n * sizeofT + A - 1) % 2 ^ w :: h.requests ∧
      (n * sizeofT + A - 1 < 2 ^ w →
        h1.requests = (n * sizeofT + A - 1) :: h.requests ∧
        a1.itsData + n * sizeofT ≤ a1.itsAllocation + (n * sizeofT + A - 1)) ∧
      (p + A - 1 < 2 ^ w → a1.itsAllocation ≤ a1.itsData) ∧
      (0 < sizeofT → n * sizeofT + A - 1 < 2 ^ w → p + (n * sizeofT + A - 1) ≤ 2 ^ w →
        a1.itsAllocation ≤ a1.itsData) := by
  obtain ⟨k, rfl⟩ := hA
  subst hp
  have hA0 : 0 < 2 ^ k := Nat.two_pow_pos k
  have hb := align_up_bounds h.next (2 ^ k) hA0
  have hlow : h.next + 2 ^ k - 1 < 2 ^ w →
      h.next ≤ (((h.next + 2 ^ k - 1) % 2 ^ w) / 2 ^ k * 2 ^ k) % 2 ^ w := by
    intro haddr
    have hd : (h.next + 2 ^ k - 1) / 2 ^ k * 2 ^ k < 2 ^ w := lt_of_le_of_lt hb.2.2 haddr
    rw [Nat.mod_eq_of_lt haddr, Nat.mod_eq_of_lt hd]
    exact hb.2.1
  refine ⟨_, _, AlignAlloc_nonnull w sizeofT n (2 ^ k) a h hempty (by omega) hp0,
    rfl, Nat.mod_eq_zero_of_dvd (align_data_dvd w h.next (2 ^ k)), rfl, rfl, ?_, hlow, ?_⟩
  · intro hfit
    refine ⟨by simp [malloc, Nat.mod_eq_of_lt hfit], ?_⟩
    show (((h.next + 2 ^ k - 1) % 2 ^ w) / 2 ^ k * 2 ^ k) % 2 ^ w + n * sizeofT
      ≤ h.next + (n * sizeofT + 2 ^ k - 1)
    have := align_data_le w h.next (2 ^ k)
    omega
  · intro hT hfit hblock
    have hpos : 0 < n * sizeofT := Nat.mul_pos hn hT
    exact hlow (by omega)

/-- C1, witness: 1024 elements of 8 bytes aligned to 256 in a block at 4097;
`itsData % 256 = 0` and the elements lie inside the block. -/
theorem C1_AlignAlloc_aligned_in_block_witness :
    ∃ a1 h1, Array.AlignAlloc 64 8 (Array.construct 0) (Heap.fresh [4097]) 1024 256
        = some (0, a1, h1) ∧
      a1.itsSize = 1024 ∧ a1.itsData % 256 = 0 ∧ a1.itsAllocation = 4097 ∧
      a1.itsAllocation ≤ a1.itsData ∧
      a1.itsData + 1024 * 8 ≤ a1.itsAllocation + (1024 * 8 + 256 - 1) := by
  obtain ⟨a1, h1, hrun, hsize, hal, hp, _, hup, hlow, _⟩ :=
    C1_AlignAlloc_aligned_in_block 64 8 1024 256 4097 (Array.construct 0)
      (Heap.fresh [4097]) rfl (by decide) ⟨8, by norm_num⟩ rfl (by decide)
  exact ⟨a1, h1, hrun, hsize, hal, hp, hlow (by norm_num), (hup (by norm_num)).2⟩

/-- C1, counterexample to the claim as stated: with a 64-bit `size_t`,
`AlignAlloc(2^61, 256)` for 8-byte elements requests `255` bytes (the product
wraps to 0), succeeds on the block at 4096 and sets `itsSize = 2^61`; then
`itsData + n*sizeof(T)` lies far beyond `itsAllocation + 255`.  And with a
32-bit `size_t`, `AlignAlloc(2^30 - 1, 16)` for 4-byte elements requests 11
bytes; answered with the 11-byte block at `2^32 - 12` it succeeds, `p + 15`
wraps to 3 and `itsData = 0`, below `itsAllocation`. -/
theorem C1_counterexample :
    Array.AlignAlloc 64 8 (Array.construct 0) (Heap.fresh [4096]) (2 ^ 61) 256
        = some (0, { itsSize := 2 ^ 61, itsData := 4096, itsAllocation := 4096 },
            { answers := [], requests := [255], released := [], live := [4096] }) ∧
      ¬ (4096 + 2 ^ 61 * 8 ≤ 4096 + 255) ∧
    Array.AlignAlloc 32 4 (Array.construct 0) (Heap.fresh [2 ^ 32 - 12]) (2 ^ 30 - 1) 16
        = some (0, { itsSize := 2 ^ 30 - 1, itsData := 0, itsAllocation := 2 ^ 32 - 12 },
            { answers := [], requests := [11], released := [], live := [2 ^ 32 - 12] }) ∧
      ¬ (2 ^ 32 - 12 ≤ 0) := by
  refine ⟨?_, by norm_num, ?_, by norm_num⟩ <;>
    simp [Array.AlignAlloc, Array.construct, Heap.fresh, malloc, Heap.next]

/-- C2: on an `Array` whose `itsSize` is non-zero, `Alloc(n)` and
`AlignAlloc(n, A)` return 1 and leave the object and the heap (hence the list
of `malloc` requests) exactly as they were. -/
theorem C2_alloc_on_nonempty_fails (w sizeofT n A : Nat) (a : Array) (h : Heap)
    (hs : a.itsSize ≠ 0) :
    Array.Alloc w sizeofT a h n = (1, a, h) ∧
      Array.AlignAlloc w sizeofT a h n A = some (1, a, h) := by
  simp [Array.Alloc, Array.AlignAlloc, hs]

/-- C2, witness: an `Array` of 4 elements whose block is at 4096. -/
theorem C2_alloc_on_nonempty_fails_witness :
    Array.Alloc 64 8 { itsSize := 4, itsData := 4096, itsAllocation := 4096 }
        (Heap.fresh [8192]) 16
      = (1, { itsSize := 4, itsData := 4096, itsAllocation := 4096 }, Heap.fresh [8192]) ∧
    Array.AlignAlloc 64 8 { itsSize := 4, itsData := 4096, itsAllocation := 4096 }
        (Heap.fresh [8192]) 16 256
      = some (1, { itsSize := 4, itsData := 4096, itsAllocation := 4096 },
          Heap.fresh [8192]) :=
  C2_alloc_on_nonempty_fails 64 8 16 256 _ _ (by decide)

/-- C3 (as amended): on an empty `Array`, when `malloc` returns null, `Alloc(n)`
and, for `A ≠ 0`, `AlignAlloc(n, A)` return 1 and leave `itsSize = 0`; `itsData`
and `itsAllocation` are both overwritten with null, and no block becomes live. -/
theorem C3_alloc_null_fails (w sizeofT n A : Nat) (a : Array) (h : Heap)
    (hempty : a.itsSize = 0) (hnull : h.next = 0) :
    Array.Alloc w sizeofT a h n =
        (1, { itsSize := 0, itsData := 0, itsAllocation := 0 },
          (malloc h ((n * sizeofT) % 2 ^ w)).2) ∧
      (malloc h ((n * sizeofT) % 2 ^ w)).2.live = h.live ∧
      (A ≠ 0 →
        Array.AlignAlloc w sizeofT a h n A =
          some (1, { itsSize := 0, itsData := 0, itsAllocation := 0 },
            (malloc h ((n * sizeofT + A - 1) % 2 ^ w)).2) ∧
        (malloc h ((n * sizeofT + A - 1) % 2 ^ w)).2.live = h.live) := by
  refine ⟨?_, ?_, ?_⟩
  · simp [Array.Alloc, hempty, malloc, hnull]
  · simp [malloc, hnull]
  · intro hA
    have h1 : (A - 1) % 2 ^ w / A = 0 :=
      Nat.div_eq_of_lt (lt_of_le_of_lt (Nat.mod_le _ _) (by omega))
    simp [Array.AlignAlloc, hempty, malloc, hnull, hA, h1]

/-- C3, witness: a default-constructed `Array` and an exhausted allocator. -/
theorem C3_alloc_null_fails_witness :
    Array.Alloc 64 8 (Array.construct 7) (Heap.fresh []) 16 =
        (1, { itsSize := 0, itsData := 0, itsAllocation := 0 },
          (malloc (Heap.fresh []) ((16 * 8) % 2 ^ 64)).2) ∧
      (malloc (Heap.fresh []) ((16 * 8) % 2 ^ 64)).2.live = (Heap.fresh []).live ∧
      (256 ≠ 0 →
        Array.AlignAlloc 64 8 (Array.construct 7) (Heap.fresh []) 16 256 =
          some (1, { itsSize := 0, itsData := 0, itsAllocation := 0 },
            (malloc (Heap.fresh []) ((16 * 8 + 256 - 1) % 2 ^ 64)).2) ∧
        (malloc (Heap.fresh []) ((16 * 8 + 256 - 1) % 2 ^ 64)).2.live
          = (Heap.fresh []).live) :=
  C3_alloc_null_fails 64 8 16 256 (Array.construct 7) (Heap.fresh []) rfl rfl

/-- C3, counterexample to the claim as stated: an `Array` that was allocated at
4096 and freed is empty and still holds `itsData = itsAllocation = 4096`; a
following `Alloc(4)` for which `malloc` returns null fails and leaves
`itsData = itsAllocation = 0`, not the values held before the call. -/
theorem C3_counterexample :
    (Array.Free (Array.Alloc 64 8 (Array.construct 0) (Heap.fresh [4096]) 4).2.1
        (Array.Alloc 64 8 (Array.construct 0) (Heap.fresh [4096]) 4).2.2)
      = ({ itsSize := 0, itsData := 4096, itsAllocation := 4096 },
          { answers := [], requests := [32], released := [4096], live := [] }) ∧
    Array.Alloc 64 8 { itsSize := 0, itsData := 4096, itsAllocation := 4096 }
        { answers := [], requests := [32], released := [4096], live := [] } 4
      = (1, { itsSize := 0, itsData := 0, itsAllocation := 0 },
          { answers := [], requests := [32, 32], released := [4096], live := [] }) := by
  constructor <;>
    simp [Array.Alloc, Array.Free, Array.construct, Heap.fresh, malloc, free, Heap.next]

/-! ### `Memset` -/

/-- The loop performs exactly `elements` stores. -/
theorem memsetLoop_writes_length {T : Type} (w : Nat) (v : T) (e : Nat) :
    ∀ (s : Nat) (m : Mem T),
      (memsetLoop w v s e m).writes.length = e + m.writes.length := by
  induction e with
  | zero => intro s m; simp [memsetLoop]
  | succ e ih =>
    intro s m
    simp only [memsetLoop]
    rw [ih]
    simp [Mem.store]
    omega

/-- For every `k < elements` the loop stores to index `(start + k) % 2 ^ w`. -/
theorem memsetLoop_index_written {T : Type} (w : Nat) (v : T) (e : Nat) :
    ∀ (s : Nat) (m : Mem T) (k : Nat), s < 2 ^ w → k < e →
      (s + k) % 2 ^ w ∈ (memsetLoop w v s e m).writes := by
  induction e with
  | zero => intro s m k _ hk; omega
  | succ e ih =>
    intro s m k hs hk
    simp only [memsetLoop]
    have keep : ∀ (e1 s1 : Nat) (m1 : Mem T) (i : Nat), i ∈ m1.writes →
        i ∈ (memsetLoop w v s1 e1 m1).writes := by
      intro e1
      induction e1 with
      | zero => intro s1 m1 i hi; simpa [memsetLoop] using hi
      | succ e1 ih1 =>
        intro s1 m1 i hi
        simp only [memsetLoop]
        exact ih1 _ _ i (by simp [Mem.store, hi])
    cases k with
    | zero =>
      apply keep
      simp [Mem.store, Nat.mod_eq_of_lt hs]
    | succ k =>
      have hlt : (s + 1) % 2 ^ w < 2 ^ w := Nat.mod_lt _ (Nat.two_pow_pos w)
      have := ih ((s + 1) % 2 ^ w) (m.store s v) k hlt (by omega)
      have e2 : ((s + 1) % 2 ^ w + k) % 2 ^ w = (s + (k + 1)) % 2 ^ w := by
        rw [Nat.mod_add_mod]
        congr 1
        omega
      rwa [e2] at this

/-- When `start + elements` does not exceed `2 ^ w` the loop stores to
`start, start + 1, …, start + elements - 1` in this order, and changes no other
cell. -/
theorem memsetLoop_no_wrap {T : Type} (w : Nat) (v : T) (e : Nat) :
    ∀ (s : Nat) (m : Mem T), s + e ≤ 2 ^ w →
      (memsetLoop w v s e m).writes = (List.range' s e).reverse ++ m.writes ∧
      ∀ i, (memsetLoop w v s e m).cells i =
        if s ≤ i ∧ i < s + e then v else m.cells i := by
  induction e with
  | zero =>
    intro s m _
    refine ⟨by simp [memsetLoop], fun i => ?_⟩
    have : ¬ (s ≤ i ∧ i < s + 0) := by omega
    rw [if_neg this]
    rfl
  | succ e ih =>
    intro s m hle
    have hnext : memsetLoop w v ((s + 1) % 2 ^ w) e (m.store s v)
        = memsetLoop w v (s + 1) e (m.store s v) := by
      cases e with
      | zero => simp [memsetLoop]
      | succ e1 => rw [Nat.mod_eq_of_lt (by omega)]
    simp only [memsetLoop]
    rw [hnext]
    obtain ⟨hw, hc⟩ := ih (s + 1) (m.store s v) (by omega)
    refine ⟨?_, fun i => ?_⟩
    · rw [hw]
      simp [Mem.store, List.range'_succ]
    · rw [hc i]
      by_cases h1 : s + 1 ≤ i ∧ i < s + 1 + e
      · have h2 : s ≤ i ∧ i < s + (e + 1) := by omega
        simp [h1, h2]
      · by_cases h3 : i = s
        · subst h3
          have h2 : i ≤ i ∧ i < i + (e + 1) := by omega
          simp [h1, h2, Mem.store]
        · have h2 : ¬ (s ≤ i ∧ i < s + (e + 1)) := by omega
          simp [h1, h2, Mem.store, Function.update, h3]

/-- `Memset(start, count, value)` when `start + count` does not wrap: the
object is unchanged, the stores go to `start, …, min(start + count, itsSize) - 1`
in this order, those cells hold `value` and every other cell is unchanged. -/
theorem Memset_no_wrap {T : Type} (w : Nat) (a : Array) (m : Mem T) (start count : Nat)
    (v : T) (hs : a.itsSize < 2 ^ w) (hsum : start + count < 2 ^ w) :
    (Array.Memset w a m start count v).1 = a ∧
    (Array.Memset w a m start count v).2.writes =
      (List.range' start (min (start + count) a.itsSize - start)).reverse ++ m.writes ∧
    ∀ i, (Array.Memset w a m start count v).2.cells i =
      if start ≤ i ∧ i < min (start + count) a.itsSize then v else m.cells i := by
  by_cases h1 : start > a.itsSize
  · have h0 : min (start + count) a.itsSize - start = 0 := by omega
    refine ⟨by simp [Array.Memset, h1], by simp [Array.Memset, h1, h0], fun i => ?_⟩
    have : ¬ (start ≤ i ∧ i < min (start + count) a.itsSize) := by omega
    rw [if_neg this]
    simp [Array.Memset, h1]
  · by_cases h2 : start + count ≥ a.itsSize
    · have hmin : min (start + count) a.itsSize = a.itsSize := by omega
      have hM : Array.Memset w a m start count v
          = (a, memsetLoop w v start (a.itsSize - start) m) := by
        simp [Array.Memset, h1, Nat.mod_eq_of_lt hsum, h2]
      obtain ⟨hw, hc⟩ := memsetLoop_no_wrap w v (a.itsSize - start) start m (by omega)
      rw [hM, hmin]
      refine ⟨rfl, hw, fun i => ?_⟩
      rw [hc i]
      have : start + (a.itsSize - start) = a.itsSize := by omega
      rw [this]
    · have hmin : min (start + count) a.itsSize = start + count := by omega
      have hM : Array.Memset w a m start count v = (a, memsetLoop w v start count m) := by
        simp [Array.Memset, h1, Nat.mod_eq_of_lt hsum, h2]
      obtain ⟨hw, hc⟩ := memsetLoop_no_wrap w v count start m (by omega)
      rw [hM, hmin]
      refine ⟨rfl, ?_, fun i => hc i⟩
      rw [hw]
      congr 3
      omega

/-- C5, the code at a failing input: with a 64-bit `size_t`, on an `Array` of
10 elements `Memset(5, 2^64 - 3, 7)` passes the bounds check (`5 + (2^64 - 3)`
wraps to 2, which is below 10), performs `2^64 - 3` stores, and stores to index
10, which is not below the size. -/
theorem C5_Memset_wrap_out_of_bounds :
    10 ∈ (Array.Memset 64 { itsSize := 10, itsData := 4096, itsAllocation := 4096 }
      { cells := fun _ => 0, writes := [] } 5 (2 ^ 64 - 3) 7).2.writes := by
  have hM : Array.Memset 64 { itsSize := 10, itsData := 4096, itsAllocation := 4096 }
      { cells := fun _ => 0, writes := [] } 5 (2 ^ 64 - 3) 7
      = ({ itsSize := 10, itsData := 4096, itsAllocation := 4096 },
          memsetLoop 64 7 5 (2 ^ 64 - 3) { cells := fun _ => 0, writes := [] }) := by
    unfold Array.Memset
    norm_num
  rw [hM]
  have := memsetLoop_index_written 64 (7 : Nat) (2 ^ 64 - 3) 5
    { cells := fun _ => 0, writes := [] } 5 (by norm_num) (by norm_num)
  norm_num at this
  exact this

/-- C6, the code at a failing input: with a 64-bit `size_t`, on an `Array` of
10 elements `Memset(10, 2^64 - 5, 7)` (so `start ≥ itsSize`, and in exact
arithmetic `start + count > itsSize`) performs `2^64 - 5` stores, not zero. -/
theorem C6_Memset_wrap_write_count :
    (Array.Memset 64 { itsSize := 10, itsData := 4096, itsAllocation := 4096 }
      { cells := fun _ => 0, writes := [] } 10 (2 ^ 64 - 5) 7).2.writes.length
        = 2 ^ 64 - 5 := by
  have hM : Array.Memset 64 { itsSize := 10, itsData := 4096, itsAllocation := 4096 }
      { cells := fun _ => 0, writes := [] } 10 (2 ^ 64 - 5) 7
      = ({ itsSize := 10, itsData := 4096, itsAllocation := 4096 },
          memsetLoop 64 7 10 (2 ^ 64 - 5) { cells := fun _ => 0, writes := [] }) := by
    unfold Array.Memset
    norm_num
  rw [hM, memsetLoop_writes_length]
  rfl

/-! ### Ownership of the block -/

/-- An operation that leaves the heap as it was leaves the owned blocks as
they were. -/
theorem ownedAfter_same (owned : List Nat) (h : Heap) : ownedAfter owned h h = owned := by
  simp [ownedAfter]

/-- After one call of `malloc` the block it returned, if non-null, is owned as
well. -/
theorem ownedAfter_malloc (owned : List Nat) (h : Heap) (bytes : Nat) :
    ownedAfter owned h (malloc h bytes).2
      = if h.next = 0 then owned else h.next :: owned := by
  unfold ownedAfter malloc Heap.next
  cases hans : h.answers with
  | nil => simp
  | cons p t =>
    by_cases hp : p = 0 <;> simp [hp]

/-- After one call of `free(p)` the block `p` is no longer owned. -/
theorem ownedAfter_free (owned : List Nat) (h : Heap) (p : Nat) :
    ownedAfter owned h (free h p) = owned.filter (fun q => q ≠ p) := by
  simp [ownedAfter, free]

/-- A state in which an empty `Array` owns nothing and a non-empty one owns
exactly the live block in `itsAllocation` satisfies `itsSize = 0 ↔` no live
block is owned. -/
theorem Owns_inv (a : Array) (owned : List Nat) (h : Heap) (hown : a.Owns owned h) :
    a.Inv owned h := by
  unfold Array.Owns at hown
  unfold Array.Inv OwnsLiveBlock
  obtain ⟨hlive, ⟨hs, ho⟩ | ⟨hs, ho⟩⟩ := hown
  · simp [hs, ho]
  · have : a.itsAllocation ∈ h.live := hlive _ (by simp [ho])
    simp [hs, ho, this]

/-- `Alloc` re-establishes `Owns` unless a zero-element request on an empty
`Array` is answered with a block. -/
theorem Alloc_owns (w sizeofT n : Nat) (a : Array) (owned : List Nat) (h : Heap)
    (hown : a.Owns owned h) (hz : ¬ (a.itsSize = 0 ∧ n = 0 ∧ h.next ≠ 0)) :
    (Array.Alloc w sizeofT a h n).2.1.Owns
      (ownedAfter owned h (Array.Alloc w sizeofT a h n).2.2)
      (Array.Alloc w sizeofT a h n).2.2 := by
  obtain ⟨hlive, ⟨hs, ho⟩ | ⟨hs, ho⟩⟩ := hown
  · subst ho
    by_cases hp : h.next = 0
    · have hA : Array.Alloc w sizeofT a h n
          = (1, ⟨0, 0, 0⟩, (malloc h ((n * sizeofT) % 2 ^ w)).2) := by
        simp [Array.Alloc, hs, malloc, hp]
      rw [hA]
      simp only [ownedAfter_malloc, if_pos hp]
      simp [Array.Owns]
    · have hn : n ≠ 0 := fun h0 => hz ⟨hs, h0, hp⟩
      have hA : Array.Alloc w sizeofT a h n
          = (0, ⟨n, h.next, h.next⟩, (malloc h ((n * sizeofT) % 2 ^ w)).2) := by
        simp [Array.Alloc, hs, malloc, hp]
      rw [hA]
      simp only [ownedAfter_malloc, if_neg hp]
      simp [Array.Owns, hp, hn, malloc]
  · have hA : Array.Alloc w sizeofT a h n = (1, a, h) := by simp [Array.Alloc, hs]
    rw [hA]
    simp only [ownedAfter_same]
    exact ⟨hlive, Or.inr ⟨hs, ho⟩⟩

/-- `AlignAlloc` with a non-zero alignment is defined and re-establishes `Owns`
unless a zero-element request on an empty `Array` is answered with a block. -/
theorem AlignAlloc_owns (w sizeofT n A : Nat) (a : Array) (owned : List Nat) (h : Heap)
    (hown : a.Owns owned h) (hA : A ≠ 0)
    (hz : ¬ (a.itsSize = 0 ∧ n = 0 ∧ h.next ≠ 0)) :
    ∃ r, Array.AlignAlloc w sizeofT a h n A = some r ∧
      r.2.1.Owns (ownedAfter owned h r.2.2) r.2.2 := by
  obtain ⟨hlive, ⟨hs, ho⟩ | ⟨hs, ho⟩⟩ := hown
  · subst ho
    by_cases hp : h.next = 0
    · have h1 : (A - 1) % 2 ^ w / A = 0 :=
        Nat.div_eq_of_lt (lt_of_le_of_lt (Nat.mod_le _ _) (by omega))
      refine ⟨(1, ⟨0, 0, 0⟩, (malloc h ((n * sizeofT + A - 1) % 2 ^ w)).2), ?_, ?_⟩
      · simp [Array.AlignAlloc, hs, hA, malloc, hp, h1]
      · simp only [ownedAfter_malloc, if_pos hp]
        simp [Array.Owns]
    · have hn : n ≠ 0 := fun h0 => hz ⟨hs, h0, hp⟩
      refine ⟨_, AlignAlloc_nonnull w sizeofT n A a h hs hA hp, ?_⟩
      simp only [ownedAfter_malloc, if_neg hp]
      simp [Array.Owns, hp, hn, malloc]
  · refine ⟨(1, a, h), by simp [Array.AlignAlloc, hs], ?_⟩
    simp only [ownedAfter_same]
    exact ⟨hlive, Or.inr ⟨hs, ho⟩⟩

/-- `Free` re-establishes `Owns`: afterwards nothing is owned. -/
theorem Free_owns (a : Array) (owned : List Nat) (h : Heap) (hown : a.Owns owned h) :
    (Array.Free a h).1.Owns (ownedAfter owned h (Array.Free a h).2) (Array.Free a h).2 := by
  obtain ⟨hlive, ⟨hs, ho⟩ | ⟨hs, ho⟩⟩ := hown
  · subst ho
    have hF : Array.Free a h = (⟨0, a.itsData, a.itsAllocation⟩, h) := by
      simp [Array.Free, hs]
    rw [hF]
    simp [Array.Owns, ownedAfter_same]
  · subst ho
    have hF : Array.Free a h
        = (⟨0, a.itsData, a.itsAllocation⟩, free h a.itsAllocation) := by
      simp [Array.Free, hs]
    rw [hF]
    simp [Array.Owns, ownedAfter_free]

/-- A default-constructed `Array` owns nothing, in every heap. -/
theorem construct_owns (g : Nat) (h : Heap) : (Array.construct g).Owns [] h := by
  simp [Array.Owns, Array.construct]

/-- The two-argument constructor is defined and establishes `Owns` unless a
zero-element request is answered with a block. -/
theorem construct2_owns (w sizeofT g n A : Nat) (h : Heap)
    (hz : ¬ (n = 0 ∧ h.next ≠ 0)) :
    ∃ r, Array.construct2 w sizeofT g h n A = some r ∧
      r.1.Owns (ownedAfter [] h r.2) r.2 := by
  have hz1 : ¬ ((Array.construct g).itsSize = 0 ∧ n = 0 ∧ h.next ≠ 0) :=
    fun hc => hz ⟨hc.2.1, hc.2.2⟩
  by_cases hA : A = 0
  · refine ⟨(Array.Alloc w sizeofT (Array.construct g) h n).2, ?_, ?_⟩
    · simp [Array.construct2, Array.construct, hA]
    · exact Alloc_owns w sizeofT n (Array.construct g) [] h (construct_owns g h) hz1
  · obtain ⟨r, hr, hown⟩ :=
      AlignAlloc_owns w sizeofT n A (Array.construct g) [] h (construct_owns g h) hA hz1
    refine ⟨r.2, ?_, hown⟩
    have hr1 : Array.AlignAlloc w sizeofT ⟨0, 0, g⟩ h n A = some r := hr
    simp [Array.construct2, hA, hr1]

/-- The stores of a `Memset` whose `start + count` does not wrap all go to
indices below `itsSize`. -/
theorem Memset_in_bounds {T : Type} (w : Nat) (a : Array) (m : Mem T) (start count : Nat)
    (v : T) (hs : a.itsSize < 2 ^ w) (hsum : start + count < 2 ^ w) :
    ∃ stores, (Array.Memset w a m start count v).2.writes = stores ++ m.writes ∧
      ∀ i ∈ stores, i < a.itsSize := by
  obtain ⟨_, hw, _⟩ := Memset_no_wrap w a m start count v hs hsum
  refine ⟨_, hw, ?_⟩
  intro i hi
  rw [List.mem_reverse, List.mem_range'_1] at hi
  omega

/-- C7: `Free` leaves `itsSize = 0`, and a second `Free` changes neither the
object nor the heap: in particular the list of addresses passed to `free` is
the same after two calls as after one. -/
theorem C7_Free_idempotent (a : Array) (h : Heap) :
    (Array.Free a h).1.itsSize = 0 ∧
    Array.Free (Array.Free a h).1 (Array.Free a h).2 = Array.Free a h ∧
    (Array.Free (Array.Free a h).1 (Array.Free a h).2).2.released
      = (Array.Free a h).2.released := by
  have h2 : Array.Free (Array.Free a h).1 (Array.Free a h).2 = Array.Free a h := by
    simp [Array.Free]
  exact ⟨rfl, h2, by rw [h2]⟩

/-- C8: on a non-empty `Array` `Free` passes exactly one address to `free`, the
one in `itsAllocation`; on an empty `Array` it leaves the heap untouched; and
after a successful `Alloc(n)` or `AlignAlloc(n, A)` (with `n ≠ 0`) on an empty
`Array`, `itsAllocation` is the address `malloc` returned, so that address is
the one a following `Free` releases. -/
theorem C8_Free_releases_allocation (w sizeofT : Nat) (a : Array) (h : Heap) :
    (a.itsSize ≠ 0 → (Array.Free a h).2.released = a.itsAllocation :: h.released) ∧
    (a.itsSize = 0 → (Array.Free a h).2 = h) ∧
    (∀ n, a.itsSize = 0 → n ≠ 0 → h.next ≠ 0 →
      (Array.Alloc w sizeofT a h n).1 = 0 ∧
      (Array.Alloc w sizeofT a h n).2.1.itsAllocation = h.next ∧
      (Array.Free (Array.Alloc w sizeofT a h n).2.1
        (Array.Alloc w sizeofT a h n).2.2).2.released = h.next :: h.released) ∧
    (∀ n A, a.itsSize = 0 → n ≠ 0 → A ≠ 0 → h.next ≠ 0 →
      ∃ r, Array.AlignAlloc w sizeofT a h n A = some r ∧ r.1 = 0 ∧
        r.2.1.itsAllocation = h.next ∧
        (Array.Free r.2.1 r.2.2).2.released = h.next :: h.released) := by
  refine ⟨?_, ?_, ?_, ?_⟩
  · intro hs
    simp [Array.Free, hs, free]
  · intro hs
    simp [Array.Free, hs]
  · intro n hs hn hp
    simp [Array.Alloc, Array.Free, hs, hn, hp, malloc, free]
  · intro n A hs hn hA hp
    simp [Array.AlignAlloc, Array.Free, hs, hn, hA, hp, malloc, free]

/-- C8, witness: `AlignAlloc(16, 256)` answered with the block at 4097 sets
`itsData = 4352`; the following `Free` passes 4097 to `free`, not 4352. -/
theorem C8_Free_releases_allocation_witness :
    ∃ r, Array.AlignAlloc 64 8 (Array.construct 0) (Heap.fresh [4097]) 16 256 = some r ∧
      r.1 = 0 ∧ r.2.1.itsAllocation = (Heap.fresh [4097]).next ∧
      (Array.Free r.2.1 r.2.2).2.released
        = (Heap.fresh [4097]).next :: (Heap.fresh [4097]).released :=
  (C8_Free_releases_allocation 64 8 (Array.construct 0) (Heap.fresh [4097])).2.2.2
    16 256 rfl (by decide) (by decide) (by decide)

/-- C9: on an `Array` holding a live block, `ReAlloc(n)` passes nothing to
`free` and the old block is still live afterwards; the call equals `Alloc(n)`
on the object with `itsSize` set to 0; and when `malloc` returns a non-null
block the result is 0 with `itsSize = n` and `itsData = itsAllocation =` that
block. -/
theorem C9_ReAlloc_orphans_old_block (w sizeofT n : Nat) (a : Array) (h : Heap)
    (_hs : 0 < a.itsSize) (hlive : a.HoldsLive h) :
    (Array.ReAlloc w sizeofT a h n).2.2.released = h.released ∧
    a.itsAllocation ∈ (Array.ReAlloc w sizeofT a h n).2.2.live ∧
    Array.ReAlloc w sizeofT a h n
      = Array.Alloc w sizeofT
          { itsSize := 0, itsData := a.itsData, itsAllocation := a.itsAllocation } h n ∧
    (h.next ≠ 0 →
      (Array.ReAlloc w sizeofT a h n).1 = 0 ∧
      (Array.ReAlloc w sizeofT a h n).2.1
        = { itsSize := n, itsData := h.next, itsAllocation := h.next }) := by
  unfold Array.HoldsLive at hlive
  refine ⟨?_, ?_, rfl, ?_⟩
  · by_cases hp : h.next = 0 <;> simp [Array.ReAlloc, Array.Alloc, malloc, hp]
  · by_cases hp : h.next = 0 <;> simp [Array.ReAlloc, Array.Alloc, malloc, hp, hlive]
  · intro hp
    simp [Array.ReAlloc, Array.Alloc, malloc, hp]

/-- C9, witness: an `Array` of 4 elements at 4096 is re-allocated to 16
elements at 8192; 4096 is still live and was never passed to `free`. -/
theorem C9_ReAlloc_orphans_old_block_witness :
    (Array.ReAlloc 64 8 { itsSize := 4, itsData := 4096, itsAllocation := 4096 }
        { answers := [8192], requests := [32], released := [], live := [4096] } 16).2.2.released
      = [] ∧
    4096 ∈ (Array.ReAlloc 64 8 { itsSize := 4, itsData := 4096, itsAllocation := 4096 }
        { answers := [8192], requests := [32], released := [], live := [4096] } 16).2.2.live :=
  ⟨(C9_ReAlloc_orphans_old_block 64 8 16
      { itsSize := 4, itsData := 4096, itsAllocation := 4096 }
      { answers := [8192], requests := [32], released := [], live := [4096] }
      (by decide) (by decide)).1,
   (C9_ReAlloc_orphans_old_block 64 8 16
      { itsSize := 4, itsData := 4096, itsAllocation := 4096 }
      { answers := [8192], requests := [32], released := [], live := [4096] }
      (by decide) (by decide)).2.1⟩

/-! ### `LoadModule` -/

/-- C10: `LoadModule` returns `FILE_NOT_FOUND` exactly when neither candidate
library opens; `SYMBOL_NOT_FOUND` exactly when one opens (the local one, or
else the system one) and `CreateFieldRenderer` or `DeleteFieldRenderer` does
not resolve in it; `SUCCESS` exactly when one opens and both resolve, and then
both global pointers are non-null and hold the resolved addresses. -/
theorem C10_LoadModule_status (env : DynLinker) (g : Globals) :
    ((LoadModule env g).1 = ModuleLoadCode.FILE_NOT_FOUND ↔
      env.dlopen EmGraphLibNameLocal = 0 ∧ env.dlopen EmGraphLibName = 0) ∧
    ((LoadModule env g).1 = ModuleLoadCode.SYMBOL_NOT_FOUND ↔
      (LoadEmGraphLib env).2.1 ≠ 0 ∧
        (env.dlsym (LoadEmGraphLib env).2.1 "CreateFieldRenderer" = 0 ∨
          env.dlsym (LoadEmGraphLib env).2.1 "DeleteFieldRenderer" = 0)) ∧
    ((LoadModule env g).1 = ModuleLoadCode.SUCCESS ↔
      (LoadEmGraphLib env).2.1 ≠ 0 ∧
        env.dlsym (LoadEmGraphLib env).2.1 "CreateFieldRenderer" ≠ 0 ∧
        env.dlsym (LoadEmGraphLib env).2.1 "DeleteFieldRenderer" ≠ 0) ∧
    ((LoadModule env g).1 = ModuleLoadCode.SUCCESS →
      (LoadModule env g).2.CreateFieldRenderer ≠ 0 ∧
      (LoadModule env g).2.DeleteFieldRenderer ≠ 0 ∧
      (LoadModule env g).2.CreateFieldRenderer
        = env.dlsym (LoadEmGraphLib env).2.1 "CreateFieldRenderer" ∧
      (LoadModule env g).2.DeleteFieldRenderer
        = env.dlsym (LoadEmGraphLib env).2.1 "DeleteFieldRenderer") ∧
    ((LoadEmGraphLib env).2.1 =
      if env.dlopen EmGraphLibNameLocal ≠ 0 then env.dlopen EmGraphLibNameLocal
      else env.dlopen EmGraphLibName) := by
  by_cases h1 : env.dlopen EmGraphLibNameLocal = 0 <;>
    by_cases h2 : env.dlopen EmGraphLibName = 0 <;>
    by_cases h3 : env.dlsym (env.dlopen EmGraphLibNameLocal) "CreateFieldRenderer" = 0 <;>
    by_cases h4 : env.dlsym (env.dlopen EmGraphLibNameLocal) "DeleteFieldRenderer" = 0 <;>
    by_cases h5 : env.dlsym (env.dlopen EmGraphLibName) "CreateFieldRenderer" = 0 <;>
    by_cases h6 : env.dlsym (env.dlopen EmGraphLibName) "DeleteFieldRenderer" = 0 <;>
    simp [LoadModule, LoadEmGraphLib, h1, h2, h3, h4, h5, h6]

/-- C11 (as amended): a run of `LoadModule` that returns `FILE_NOT_FOUND` leaves
both global pointers as they were.  A run that returns `SYMBOL_NOT_FOUND` leaves
in `CreateFieldRenderer` what `dlsym` returned for it: null when it did not
resolve, and then `DeleteFieldRenderer` is unchanged; the resolved address when
it resolved and `DeleteFieldRenderer` did not, and then `DeleteFieldRenderer` is
null.  After every failing run at least one of the two pointers is null or both
are unchanged. -/
theorem C11_LoadModule_failure_globals (env : DynLinker) (g : Globals)
    (hfail : (LoadModule env g).1 ≠ ModuleLoadCode.SUCCESS) :
    ((LoadModule env g).1 = ModuleLoadCode.FILE_NOT_FOUND → (LoadModule env g).2 = g) ∧
    ((LoadModule env g).1 = ModuleLoadCode.SYMBOL_NOT_FOUND →
      (LoadModule env g).2.CreateFieldRenderer
        = env.dlsym (LoadEmGraphLib env).2.1 "CreateFieldRenderer" ∧
      (env.dlsym (LoadEmGraphLib env).2.1 "CreateFieldRenderer" = 0 →
        (LoadModule env g).2.DeleteFieldRenderer = g.DeleteFieldRenderer) ∧
      (env.dlsym (LoadEmGraphLib env).2.1 "CreateFieldRenderer" ≠ 0 →
        (LoadModule env g).2.DeleteFieldRenderer = 0)) ∧
    ((LoadModule env g).2 = g ∨ (LoadModule env g).2.CreateFieldRenderer = 0 ∨
      (LoadModule env g).2.DeleteFieldRenderer = 0) := by
  revert hfail
  by_cases h1 : env.dlopen EmGraphLibNameLocal = 0 <;>
    by_cases h2 : env.dlopen EmGraphLibName = 0 <;>
    by_cases h3 : env.dlsym (env.dlopen EmGraphLibNameLocal) "CreateFieldRenderer" = 0 <;>
    by_cases h4 : env.dlsym (env.dlopen EmGraphLibNameLocal) "DeleteFieldRenderer" = 0 <;>
    by_cases h5 : env.dlsym (env.dlopen EmGraphLibName) "CreateFieldRenderer" = 0 <;>
    by_cases h6 : env.dlsym (env.dlopen EmGraphLibName) "DeleteFieldRenderer" = 0 <;>
    simp [LoadModule, LoadEmGraphLib, h1, h2, h3, h4, h5, h6]

/-- C11, witness: no candidate library opens; the pointers 11 and 12 held before
the call are still there. -/
theorem C11_LoadModule_failure_globals_witness :
    (LoadModule { dlopen := fun _ => 0, dlsym := fun _ _ => 0 }
        { CreateFieldRenderer := 11, DeleteFieldRenderer := 12 }).2
      = { CreateFieldRenderer := 11, DeleteFieldRenderer := 12 } :=
  (C11_LoadModule_failure_globals { dlopen := fun _ => 0, dlsym := fun _ _ => 0 }
    { CreateFieldRenderer := 11, DeleteFieldRenderer := 12 } (by decide)).1 (by decide)

/-- C11, counterexample to the claim as stated: the local library opens with
handle 77 and exports `CreateFieldRenderer` at 1000 but not
`DeleteFieldRenderer`.  `LoadModule` returns `SYMBOL_NOT_FOUND`, and the global
`CreateFieldRenderer`, null before the call, holds 1000 after it. -/
theorem C11_counterexample :
    LoadModule
        { dlopen := fun _ => 77,
          dlsym := fun _ name => if name = "CreateFieldRenderer" then 1000 else 0 }
        { CreateFieldRenderer := 0, DeleteFieldRenderer := 0 }
      = (ModuleLoadCode.SYMBOL_NOT_FOUND,
          { CreateFieldRenderer := 1000, DeleteFieldRenderer := 0 }) := by
  simp [LoadModule, LoadEmGraphLib]

/-- C12: on an empty `Array`, `Alloc(n)` returns 0 exactly when `malloc` returns
a non-null block and 1 otherwise; it passes `n*sizeof(T)`, computed in `size_t`,
to `malloc`, once; and on success `itsSize = n` and `itsData = itsAllocation =`
the address `malloc` returned. -/
theorem C12_Alloc_on_empty (w sizeofT n : Nat) (a : Array) (h : Heap)
    (hempty : a.itsSize = 0) :
    ((Array.Alloc w sizeofT a h n).1 = 0 ↔ h.next ≠ 0) ∧
    ((Array.Alloc w sizeofT a h n).1 = 1 ↔ h.next = 0) ∧
    (Array.Alloc w sizeofT a h n).2.2.requests = (n * sizeofT) % 2 ^ w :: h.requests ∧
    ((Array.Alloc w sizeofT a h n).1 = 0 →
      (Array.Alloc w sizeofT a h n).2.1
        = { itsSize := n, itsData := h.next, itsAllocation := h.next }) := by
  by_cases hp : h.next = 0 <;> simp [Array.Alloc, hempty, malloc, hp]

/-- C12, witness: `Alloc(16)` of 8-byte elements on a default-constructed
`Array` requests 128 bytes. -/
theorem C12_Alloc_on_empty_witness :
    (Array.Alloc 64 8 (Array.construct 0) (Heap.fresh [4096]) 16).2.2.requests
      = (16 * 8) % 2 ^ 64 :: (Heap.fresh [4096]).requests :=
  (C12_Alloc_on_empty 64 8 16 (Array.construct 0) (Heap.fresh [4096]) rfl).2.2.1

/-- C13 (as amended): on an empty `Array`, for every `n` and every `A ≥ 1`,
`AlignAlloc(n, A)` passes `n*sizeof(T) + A - 1`, computed in `size_t`, to
`malloc`, once (that is `n*sizeof(T) + A - 1` itself when it fits `size_t`);
`itsAllocation` is the address `p` that `malloc` returned, and `itsData` is a
multiple of `A` and at most `p + A - 1`; when `p` is non-null the call returns
0 with `itsSize = n`; and when `p + A - 1` fits `size_t`, `itsData` is the
least multiple of `A` that is `≥ p`, so `p ≤ itsData ≤ p + A - 1`, and
`itsData = p` when `A ∣ p`. -/
theorem C13_AlignAlloc_request_and_rounding (w sizeofT n A : Nat) (a : Array) (h : Heap)
    (hempty : a.itsSize = 0) (hA : 1 ≤ A) :
    ∃ r, Array.AlignAlloc w sizeofT a h n A = some r ∧
      r.2.2.requests = (n * sizeofT + A - 1) % 2 ^ w :: h.requests ∧
      (n * sizeofT + A - 1 < 2 ^ w →
        r.2.2.requests = (n * sizeofT + A - 1) :: h.requests) ∧
      r.2.1.itsAllocation = h.next ∧
      A ∣ r.2.1.itsData ∧
      r.2.1.itsData ≤ h.next + A - 1 ∧
      r.2.1.itsData - h.next ≤ A - 1 ∧
      (h.next ≠ 0 → r.1 = 0 ∧ r.2.1.itsSize = n) ∧
      (h.next + A - 1 < 2 ^ w →
        h.next ≤ r.2.1.itsData ∧
        (∀ q, A ∣ q → h.next ≤ q → r.2.1.itsData ≤ q) ∧
        (A ∣ h.next → r.2.1.itsData = h.next)) := by
  have hA0 : A ≠ 0 := by omega
  have hb := align_up_bounds h.next A (by omega)
  have hleast : ∀ q, A ∣ q → h.next ≤ q → (h.next + A - 1) / A * A ≤ q := by
    intro q hq hle
    obtain ⟨c, rfl⟩ := hq
    rw [Nat.mul_comm A c]
    apply Nat.mul_le_mul_right
    apply Nat.le_of_lt_succ
    rw [Nat.div_lt_iff_lt_mul (by omega)]
    have : (c + 1) * A = A * c + A := by ring
    rw [Nat.succ_eq_add_one, this]
    omega
  by_cases hp : h.next = 0
  · have h1 : (A - 1) % 2 ^ w / A = 0 :=
      Nat.div_eq_of_lt (lt_of_le_of_lt (Nat.mod_le _ _) (by omega))
    refine ⟨(1, ⟨0, 0, 0⟩, (malloc h ((n * sizeofT + A - 1) % 2 ^ w)).2), ?_, rfl, ?_,
      hp.symm, Nat.dvd_zero A, Nat.zero_le _, by simp, fun hne => absurd hp hne, ?_⟩
    · simp [Array.AlignAlloc, hempty, hA0, malloc, hp, h1]
    · intro hfit
      simp [malloc, Nat.mod_eq_of_lt hfit]
    · intro _
      refine ⟨by simp [hp], fun q _ _ => Nat.zero_le q, fun _ => hp.symm⟩
  · have hle := align_data_le w h.next A
    refine ⟨(0, ⟨n, (((h.next + A - 1) % 2 ^ w) / A * A) % 2 ^ w, h.next⟩,
        (malloc h ((n * sizeofT + A - 1) % 2 ^ w)).2),
      AlignAlloc_nonnull w sizeofT n A a h hempty hA0 hp, rfl, ?_, rfl,
      align_data_dvd w h.next A, hle, ?_, fun _ => ⟨rfl, rfl⟩, ?_⟩
    · intro hfit
      simp [malloc, Nat.mod_eq_of_lt hfit]
    · show (((h.next + A - 1) % 2 ^ w) / A * A) % 2 ^ w - h.next ≤ A - 1
      omega
    · intro haddr
      have hd : (h.next + A - 1) / A * A < 2 ^ w := lt_of_le_of_lt hb.2.2 haddr
      rw [Nat.mod_eq_of_lt haddr, Nat.mod_eq_of_lt hd]
      refine ⟨hb.2.1, hleast, ?_⟩
      intro hdiv
      exact le_antisymm (hleast _ hdiv (le_refl _)) hb.2.1

/-- C13, witness: `AlignAlloc(1024, 256)` of 8-byte elements on a
default-constructed `Array` requests `1024*8 + 255` bytes. -/
theorem C13_AlignAlloc_request_and_rounding_witness :
    ∃ r, Array.AlignAlloc 64 8 (Array.construct 0) (Heap.fresh [4097]) 1024 256 = some r ∧
      r.2.2.requests = (1024 * 8 + 256 - 1) % 2 ^ 64 :: (Heap.fresh [4097]).requests := by
  obtain ⟨r, h1, h2, _⟩ := C13_AlignAlloc_request_and_rounding 64 8 1024 256
    (Array.construct 0) (Heap.fresh [4097]) rfl (by decide)
  exact ⟨r, h1, h2⟩

/-- C13, counterexample to the claim as stated.  With a 64-bit `size_t` and
8-byte elements, `AlignAlloc(2^61 - 1, 256)` requests 247 bytes (the sum wraps);
answered with the 247-byte block at `2^64 - 248` it succeeds, and the rounding
`p + 255` wraps to 7, so `itsData = 0`, which is not `≥ p`.  With a 32-bit
`size_t` and 4-byte elements, `AlignAlloc(2^30, 16)` requests 15 bytes, not
`2^30 * 4 + 15`. -/
theorem C13_counterexample :
    Array.AlignAlloc 64 8 (Array.construct 0) (Heap.fresh [2 ^ 64 - 248]) (2 ^ 61 - 1) 256
      = some (0, { itsSize := 2 ^ 61 - 1, itsData := 0, itsAllocation := 2 ^ 64 - 248 },
          { answers := [], requests := [247], released := [], live := [2 ^ 64 - 248] }) ∧
    ¬ (2 ^ 64 - 248 ≤ 0) ∧
    Array.AlignAlloc 32 4 (Array.construct 0) (Heap.fresh [4096]) (2 ^ 30) 16
      = some (0, { itsSize := 2 ^ 30, itsData := 4096, itsAllocation := 4096 },
          { answers := [], requests := [15], released := [], live := [4096] }) ∧
    (15 : Nat) ≠ 2 ^ 30 * 4 + 16 - 1 := by
  refine ⟨?_, by norm_num, ?_, by norm_num⟩ <;>
    simp [Array.AlignAlloc, Array.construct, Heap.fresh, malloc, Heap.next]

/-- C14 (as amended): `GetSizeBytes()` is `GetSize() * GetElemSize()` reduced
modulo `2 ^ w`, the `size_t` product (the exact product whenever that fits
`size_t`), and `GetElemSize()` is `sizeof(T)`; `GetSize()` is 0 for a
default-constructed `Array` and after `Free`, and `n` after an `Alloc(n)` or
`AlignAlloc(n, A)` that returned 0; the three accessors return the object
unchanged. -/
theorem C14_accessors (w sizeofT : Nat) (a : Array) (h : Heap) :
    (Array.GetSizeBytes w sizeofT a).1
      = ((Array.GetSize a).1 * (Array.GetElemSize sizeofT a).1) % 2 ^ w ∧
    ((Array.GetSize a).1 * (Array.GetElemSize sizeofT a).1 < 2 ^ w →
      (Array.GetSizeBytes w sizeofT a).1
        = (Array.GetSize a).1 * (Array.GetElemSize sizeofT a).1) ∧
    (Array.GetElemSize sizeofT a).1 = sizeofT ∧
    (∀ g, (Array.GetSize (Array.construct g)).1 = 0) ∧
    (Array.GetSize (Array.Free a h).1).1 = 0 ∧
    (∀ n, (Array.Alloc w sizeofT a h n).1 = 0 →
      (Array.GetSize (Array.Alloc w sizeofT a h n).2.1).1 = n) ∧
    (∀ n A r, Array.AlignAlloc w sizeofT a h n A = some r → r.1 = 0 →
      (Array.GetSize r.2.1).1 = n) ∧
    (Array.GetElemSize sizeofT a).2 = a ∧ (Array.GetSize a).2 = a ∧
    (Array.GetSizeBytes w sizeofT a).2 = a := by
  refine ⟨rfl, fun hlt => Nat.mod_eq_of_lt hlt, rfl, fun _ => rfl, rfl, ?_, ?_, rfl, rfl, rfl⟩
  · intro n
    unfold Array.Alloc Array.GetSize
    by_cases hs : a.itsSize = 0 <;> by_cases hp : (malloc h (n * sizeofT % 2 ^ w)).1 = 0 <;>
      simp [hs, hp]
  · intro n A r
    unfold Array.AlignAlloc Array.GetSize
    by_cases hs : a.itsSize = 0 <;> by_cases hA : A = 0 <;>
      by_cases hp : (malloc h ((n * sizeofT + A - 1) % 2 ^ w)).1 = 0 <;>
      simp [hs, hA, hp] <;> intro hr <;> subst hr <;> simp

/-- C14, witness: after the successful `AlignAlloc(1024, 256)` of 8-byte
elements, `GetSizeBytes()` is 8192. -/
theorem C14_accessors_witness :
    ∃ r, Array.AlignAlloc 64 8 (Array.construct 0) (Heap.fresh [4097]) 1024 256 = some r ∧
      r.1 = 0 ∧ (Array.GetSizeBytes 64 8 r.2.1).1 = 8192 := by
  have hrun := AlignAlloc_success 64 8 1024 256 4097 (Array.construct 0) (Heap.fresh [4097])
    rfl (by decide) rfl (by decide) (by norm_num) (by norm_num)
  refine ⟨_, hrun, rfl, ?_⟩
  have hsize := (C14_accessors 64 8 (Array.construct 0) (Heap.fresh [4097])).2.2.2.2.2.2.1
    1024 256 _ hrun rfl
  have hbytes := (C14_accessors 64 8
    { itsSize := 1024, itsData := (4097 + 256 - 1) / 256 * 256, itsAllocation := 4097 }
    (Heap.fresh [])).2.1
  rw [hsize] at hbytes
  exact hbytes (by norm_num [Array.GetElemSize])

/-- C14, counterexample to the claim as stated: with a 64-bit `size_t`,
`Alloc(2^61)` of 8-byte elements requests 0 bytes and, answered with the block
at 4096, returns 0 with `itsSize = 2^61`.  In that state `GetSizeBytes()`
returns 0, while `GetSize()` times `GetElemSize()` is `2^64`. -/
theorem C14_counterexample :
    Array.Alloc 64 8 (Array.construct 0) (Heap.fresh [4096]) (2 ^ 61)
      = (0, { itsSize := 2 ^ 61, itsData := 4096, itsAllocation := 4096 },
          { answers := [], requests := [0], released := [], live := [4096] }) ∧
    (Array.GetSizeBytes 64 8
      { itsSize := 2 ^ 61, itsData := 4096, itsAllocation := 4096 }).1 = 0 ∧
    (Array.GetSize { itsSize := 2 ^ 61, itsData := 4096, itsAllocation := 4096 }).1
      * (Array.GetElemSize 8
          { itsSize := 2 ^ 61, itsData := 4096, itsAllocation := 4096 }).1 = 2 ^ 64 ∧
    (Array.GetSizeBytes 64 8
      { itsSize := 2 ^ 61, itsData := 4096, itsAllocation := 4096 }).1
      ≠ (Array.GetSize { itsSize := 2 ^ 61, itsData := 4096, itsAllocation := 4096 }).1
        * (Array.GetElemSize 8
            { itsSize := 2 ^ 61, itsData := 4096, itsAllocation := 4096 }).1 := by
  refine ⟨?_, ?_, ?_, ?_⟩
  · simp [Array.Alloc, Array.construct, Heap.fresh, malloc, Heap.next]
  · norm_num [Array.GetSizeBytes]
  · norm_num [Array.GetSize, Array.GetElemSize]
  · norm_num [Array.GetSizeBytes, Array.GetSize, Array.GetElemSize]


/-- C15: on an `Array` of size `s`, `Memset(v)` is the call `Memset(0, s, v)`;
afterwards every cell at an index below `s` holds `v`, every other cell is
unchanged, the stores went to `0, …, s - 1` (so none on an empty `Array`), and
the object is unchanged. -/
theorem C15_MemsetAll_fills {T : Type} (w : Nat) (a : Array) (m : Mem T) (v : T)
    (hs : a.itsSize < 2 ^ w) :
    Array.MemsetAll w a m v = Array.Memset w a m 0 a.itsSize v ∧
    (∀ i, i < a.itsSize → (Array.MemsetAll w a m v).2.cells i = v) ∧
    (∀ i, a.itsSize ≤ i → (Array.MemsetAll w a m v).2.cells i = m.cells i) ∧
    (Array.MemsetAll w a m v).2.writes = (List.range' 0 a.itsSize).reverse ++ m.writes ∧
    (Array.MemsetAll w a m v).1 = a ∧
    (a.itsSize = 0 →
      (Array.MemsetAll w a m v).2.writes = m.writes ∧
      ∀ i, (Array.MemsetAll w a m v).2.cells i = m.cells i) := by
  obtain ⟨h1, h2, h3⟩ := Memset_no_wrap w a m 0 a.itsSize v hs (by omega)
  have hmin : min (0 + a.itsSize) a.itsSize = a.itsSize := by simp
  rw [hmin] at h2 h3
  have hw : (Array.MemsetAll w a m v).2.writes
      = (List.range' 0 a.itsSize).reverse ++ m.writes := by
    unfold Array.MemsetAll
    rw [h2]
    simp
  have hc : ∀ i, (Array.MemsetAll w a m v).2.cells i
      = if 0 ≤ i ∧ i < a.itsSize then v else m.cells i := fun i => h3 i
  refine ⟨rfl, ?_, ?_, hw, h1, ?_⟩
  · intro i hi
    rw [hc i, if_pos ⟨Nat.zero_le _, hi⟩]
  · intro i hi
    rw [hc i, if_neg (by omega)]
  · intro h0
    refine ⟨by rw [hw, h0]; simp, fun i => ?_⟩
    rw [hc i, if_neg (by omega)]

/-- C15, witness: `Memset(7)` on an `Array` of 3 elements stores to 0, 1, 2. -/
theorem C15_MemsetAll_fills_witness :
    (Array.MemsetAll 64 { itsSize := 3, itsData := 4096, itsAllocation := 4096 }
        { cells := fun _ => 0, writes := [] } 7).2.writes
      = (List.range' 0 3).reverse ++ [] :=
  (C15_MemsetAll_fills 64 { itsSize := 3, itsData := 4096, itsAllocation := 4096 }
    { cells := fun _ => 0, writes := [] } 7 (by norm_num)).2.2.2.1

/-- C16: `LoadEmGraphLib` always opens the local-path library first.  When it
opens, that is the only call of `dlopen`, the status is `SUCCESS`, the handle
returned is the local one, and `LoadModule` resolves `CreateFieldRenderer` in
it.  Only when it fails is the system-path library opened, and its handle is the
one returned.  `FILE_NOT_FOUND` is returned exactly when both failed, after
both were tried. -/
theorem C16_LoadEmGraphLib_order (env : DynLinker) (g : Globals) :
    (LoadEmGraphLib env).2.2.head? = some EmGraphLibNameLocal ∧
    (env.dlopen EmGraphLibNameLocal ≠ 0 →
      LoadEmGraphLib env
        = (ModuleLoadCode.SUCCESS, env.dlopen EmGraphLibNameLocal, [EmGraphLibNameLocal]) ∧
      (LoadModule env g).2.CreateFieldRenderer
        = env.dlsym (env.dlopen EmGraphLibNameLocal) "CreateFieldRenderer" ∧
      ((LoadModule env g).1 = ModuleLoadCode.SUCCESS →
        (LoadModule env g).2.DeleteFieldRenderer
          = env.dlsym (env.dlopen EmGraphLibNameLocal) "DeleteFieldRenderer")) ∧
    (env.dlopen EmGraphLibNameLocal = 0 →
      (LoadEmGraphLib env).2.2 = [EmGraphLibNameLocal, EmGraphLibName] ∧
      (LoadEmGraphLib env).2.1 = env.dlopen EmGraphLibName) ∧
    (EmGraphLibName ∈ (LoadEmGraphLib env).2.2 ↔ env.dlopen EmGraphLibNameLocal = 0) ∧
    ((LoadEmGraphLib env).1 = ModuleLoadCode.FILE_NOT_FOUND ↔
      env.dlopen EmGraphLibNameLocal = 0 ∧ env.dlopen EmGraphLibName = 0) ∧
    ((LoadEmGraphLib env).1 = ModuleLoadCode.FILE_NOT_FOUND →
      (LoadEmGraphLib env).2.2 = [EmGraphLibNameLocal, EmGraphLibName]) ∧
    ((LoadModule env g).1 = ModuleLoadCode.FILE_NOT_FOUND ↔
      (LoadEmGraphLib env).1 = ModuleLoadCode.FILE_NOT_FOUND) := by
  have hne : EmGraphLibName ≠ EmGraphLibNameLocal := by decide
  by_cases h1 : env.dlopen EmGraphLibNameLocal = 0 <;>
    by_cases h2 : env.dlopen EmGraphLibName = 0 <;>
    by_cases h3 : env.dlsym (env.dlopen EmGraphLibNameLocal) "CreateFieldRenderer" = 0 <;>
    by_cases h4 : env.dlsym (env.dlopen EmGraphLibNameLocal) "DeleteFieldRenderer" = 0 <;>
    by_cases h5 : env.dlsym (env.dlopen EmGraphLibName) "CreateFieldRenderer" = 0 <;>
    by_cases h6 : env.dlsym (env.dlopen EmGraphLibName) "DeleteFieldRenderer" = 0 <;>
    simp [LoadModule, LoadEmGraphLib, h1, h2, h3, h4, h5, h6, hne]

/-- C16, witness: the local library opens with handle 77; `dlopen` is called
once, with the local name, and 77 is the handle returned. -/
theorem C16_LoadEmGraphLib_order_witness :
    LoadEmGraphLib
        { dlopen := fun name => if name = EmGraphLibNameLocal then 77 else 88,
          dlsym := fun _ _ => 0 }
      = (ModuleLoadCode.SUCCESS, 77, [EmGraphLibNameLocal]) :=
  ((C16_LoadEmGraphLib_order
    { dlopen := fun name => if name = EmGraphLibNameLocal then 77 else 88,
      dlsym := fun _ _ => 0 }
    { CreateFieldRenderer := 0, DeleteFieldRenderer := 0 }).2.1 (by decide)).1

/-- C17: the two-argument constructor is always defined (it never reaches the
division of `AlignAlloc` with a zero divisor): with `alignment = 0` it yields
the state of a default-constructed `Array` followed by `Alloc(size)`, and with
`alignment ≠ 0` that of a default-constructed `Array` followed by
`AlignAlloc(size, alignment)`, which is defined.  `AlignAlloc` is undefined
exactly when it is called on an empty `Array` with `alignment = 0`. -/
theorem C17_constructor_never_divides_by_zero (w sizeofT g size A : Nat) (h : Heap) :
    (Array.construct2 w sizeofT g h size A).isSome = true ∧
    (A = 0 →
      Array.construct2 w sizeofT g h size A
        = some (Array.Alloc w sizeofT (Array.construct g) h size).2) ∧
    (A ≠ 0 →
      ∃ r, Array.AlignAlloc w sizeofT (Array.construct g) h size A = some r ∧
        Array.construct2 w sizeofT g h size A = some r.2) ∧
    (∀ (a : Array) (n B : Nat),
      Array.AlignAlloc w sizeofT a h n B = none ↔ a.itsSize = 0 ∧ B = 0) := by
  refine ⟨?_, ?_, ?_, ?_⟩
  · by_cases hA : A = 0 <;> by_cases hp : h.next = 0 <;>
      simp [Array.construct2, Array.AlignAlloc, malloc, hA, hp]
  · intro hA
    simp [Array.construct2, Array.construct, hA]
  · intro hA
    by_cases hp : h.next = 0 <;>
      simp [Array.construct2, Array.construct, Array.AlignAlloc, malloc, hA, hp]
  · intro a n B
    by_cases hs : a.itsSize = 0 <;> by_cases hB : B = 0 <;>
      by_cases hp : h.next = 0 <;>
      simp [Array.AlignAlloc, malloc, hs, hB, hp]

/-- C17, witness: `Array(16, 0)` of 8-byte elements is the default-constructed
`Array` followed by `Alloc(16)`. -/
theorem C17_constructor_never_divides_by_zero_witness :
    Array.construct2 64 8 0 (Heap.fresh [4096]) 16 0
      = some (Array.Alloc 64 8 (Array.construct 0) (Heap.fresh [4096]) 16).2 :=
  (C17_constructor_never_divides_by_zero 64 8 0 16 0 (Heap.fresh [4096])).2.1 rfl

end ElectroMag
